import Mathlib

/-!
Shallow embedding of `src/streamlit_app.py` (offshore pipeline dashboard).

Tables are modelled as pandas DataFrames: an ordered header of
(column name, stored dtype) pairs plus a list of rows, each row a list of
cell values.  Machine floats are modelled as rationals, calendar dates as
integer day numbers, NaN/NaT as `Val.missing`.
-/

namespace Pipeline

/-- A cell value of the table: a string, a number (pandas float, modelled
as a rational), a calendar date (day number), or a missing value
(NaN / NaT / None). -/
inductive Val where
  | str (s : String)
  | num (q : ℚ)
  | dt (d : ℤ)
  | missing
deriving DecidableEq

/-- The stored dtype of a pandas column: `object` (text and arbitrary
Python objects), a numeric dtype, or `datetime64`.  The filter loop in
`create_filter_sidebar` dispatches on this stored dtype. -/
inductive Dtype where
  | object
  | numeric
  | datetime
deriving DecidableEq

/-- A pandas DataFrame: named, dtyped columns in order, and rows. -/
structure Table where
  header : List (String × Dtype)
  rows : List (List Val)
deriving DecidableEq

/-- Cell of row `r` at column position `i` (missing when out of range). -/
def cellAt (r : List Val) (i : Nat) : Val := r.getD i Val.missing

/-- The values of column `i` of table `t`, in row order (`df[column]`). -/
def origCells (t : Table) (i : Nat) : List Val := t.rows.map (fun r => cellAt r i)

/-- Drop missing values from a column (`df[column].dropna()`). -/
def dropNa (cs : List Val) : List Val := cs.filter (fun v => v != Val.missing)

/-- Deduplication keeping the first occurrence of each value, as
`pandas.Series.unique` does; `seen` accumulates values already emitted. -/
def uniqueAux : List Val → List Val → List Val
  | [], _ => []
  | v :: rest, seen =>
      if seen.contains v then uniqueAux rest seen
      else v :: uniqueAux rest (v :: seen)

/-- Distinct values of a list in order of first occurrence
(`df[column].dropna().unique()` composes this with `dropNa`). -/
def uniqueFirst (l : List Val) : List Val := uniqueAux l []

/-- The numbers present in a column; on a numeric-dtype column this is the
column with NaN skipped, which is how `Series.min`/`Series.max` reduce. -/
def numsOf (cs : List Val) : List ℚ :=
  cs.filterMap (fun v => match v with | .num q => some q | _ => none)

/-- The dates present in a column (`pd.to_datetime(...).dropna()` on a
datetime column). -/
def datesOf (cs : List Val) : List ℤ :=
  cs.filterMap (fun v => match v with | .dt d => some d | _ => none)

/-- Minimum of a list (how `Series.min` folds the present values);
the `[]` case is never used by the engine. -/
def listMin {α : Type} [LinearOrder α] [Inhabited α] : List α → α
  | [] => default
  | [x] => x
  | x :: y :: rest => min x (listMin (y :: rest))

/-- Maximum of a list (`Series.max`). -/
def listMax {α : Type} [LinearOrder α] [Inhabited α] : List α → α
  | [] => default
  | [x] => x
  | x :: y :: rest => max x (listMax (y :: rest))

/-- Character-list version of `startswith`. -/
def leadsWith : List Char → List Char → Bool
  | [], _ => true
  | _ :: _, [] => false
  | p :: ps, c :: cs => p == c && leadsWith ps cs

/-- Substring test on character lists. -/
def containsSeq (pat : List Char) : List Char → Bool
  | [] => leadsWith pat []
  | c :: cs => leadsWith pat (c :: cs) || containsSeq pat cs

/-- The dispatch test `'date' in column.lower()` of the filter loop. -/
def hasDateToken (n : String) : Bool :=
  containsSeq ['d', 'a', 't', 'e'] (n.toList.map Char.toLower)

/-- A per-column filter selection held in the session state: the chosen
value list of a multiselect / checkbox group (`filter_{col}`), the chosen
numeric slider interval (`slider_{col}`), or the chosen date interval
(`date_{col}`). -/
inductive Selection where
  | cat (vals : List Val)
  | range (lo hi : ℚ)
  | dateRange (lo hi : ℤ)
deriving DecidableEq

/-- The session's selection state, keyed by column name. -/
abbrev Selections := List (String × Selection)

/-- First-match association lookup, the access discipline of the session
state dictionary. -/
def assocLookup {β : Type} : List (String × β) → String → Option β
  | [], _ => none
  | e :: rest, n => if e.1 = n then some e.2 else assocLookup rest n

/-- Categorical selection for column `n`: the session value when present,
else the widget default `[]`. -/
def lookupCat (S : Selections) (n : String) : List Val :=
  match assocLookup S n with
  | some (.cat vs) => vs
  | _ => []

/-- Numeric range selection for column `n`: the session slider value when
present, else the widget default `(lo, hi)` = observed `(min, max)`. -/
def lookupRange (S : Selections) (n : String) (lo hi : ℚ) : ℚ × ℚ :=
  match assocLookup S n with
  | some (.range a b) => (a, b)
  | _ => (lo, hi)

/-- Date range selection for column `n`, defaulting to the observed
`(min, max)` dates. -/
def lookupDateRange (S : Selections) (n : String) (lo hi : ℤ) : ℤ × ℤ :=
  match assocLookup S n with
  | some (.dateRange a b) => (a, b)
  | _ => (lo, hi)

/-- The kind of filter control a column receives. -/
inductive ColumnKind where
  | categorical
  | numeric
  | temporal
deriving DecidableEq

/-- The branch of `create_filter_sidebar`'s per-column `if`/`elif` chain a
column falls into: `object` dtype → categorical widgets, numeric dtype →
range slider, any other dtype whose name contains the token `date` →
date-range picker, and otherwise no control at all. -/
def classifyCol (n : String) (d : Dtype) : Option ColumnKind :=
  match d with
  | .object => some .categorical
  | .numeric => some .numeric
  | .datetime => if hasDateToken n then some .temporal else none

/-- Membership filter of the categorical branch
(`filtered_df[column].isin(selected_values)`). -/
def catPred (sel : List Val) : Val → Bool := fun v => sel.contains v

/-- Interval filter of the numeric branch
(`(filtered_df[column] >= lo) & (filtered_df[column] <= hi)`); on NaN both
comparisons are false. -/
def rangePred (lo hi : ℚ) : Val → Bool := fun v =>
  match v with
  | .num q => decide (lo ≤ q) && decide (q ≤ hi)
  | _ => false

/-- Interval filter of the date branch; NaT fails both comparisons. -/
def datePred (lo hi : ℤ) : Val → Bool := fun v =>
  match v with
  | .dt d => decide (lo ≤ d) && decide (d ≤ hi)
  | _ => false

/-- The filter predicate column `i` (named `n`, dtype `d`) contributes:
`none` when the column imposes no restriction.  Mirrors the body of the
loop of `create_filter_sidebar`: a categorical column filters only when it
has a distinct value and the selection is non-empty; a numeric column
filters whenever it has a present value and its observed min and max
differ, using the session range or the full default; a `date`-named
datetime column filters whenever it has a present date, using the session
date range or the full default.  Options and bounds are computed from the
original `df`, not from the partially filtered rows. -/
def colPred (t : Table) (S : Selections) (i : Nat) (n : String) (d : Dtype) :
    Option (Val → Bool) :=
  match classifyCol n d with
  | some .categorical =>
      let uniq := uniqueFirst (dropNa (origCells t i))
      if uniq.isEmpty then none
      else
        let sel := lookupCat S n
        if sel.isEmpty then none else some (catPred sel)
  | some .numeric =>
      let ns := numsOf (origCells t i)
      if ns.isEmpty then none
      else
        let mn := listMin ns
        let mx := listMax ns
        if mn = mx then none
        else
          let lohi := lookupRange S n mn mx
          some (rangePred lohi.1 lohi.2)
  | some .temporal =>
      let ds := datesOf (origCells t i)
      if ds.isEmpty then none
      else
        let lohi := lookupDateRange S n (listMin ds) (listMax ds)
        some (datePred lohi.1 lohi.2)
  | none => none

/-- One step of the filter loop: apply column `i`'s predicate (if any) to
the surviving rows (`filtered_df = filtered_df[...]`). -/
def applyColumn (t : Table) (S : Selections) (i : Nat) (c : String × Dtype)
    (rows : List (List Val)) : List (List Val) :=
  match colPred t S i c.1 c.2 with
  | none => rows
  | some p => rows.filter (fun r => p (cellAt r i))

/-- The filter loop over the columns starting at position `i`. -/
def applyColumns (t : Table) (S : Selections) :
    Nat → List (String × Dtype) → List (List Val) → List (List Val)
  | _, [], rows => rows
  | i, c :: cs, rows => applyColumns t S (i + 1) cs (applyColumn t S i c rows)

/-- The filter engine of `create_filter_sidebar`: starting from a copy of
`df`, successively narrow the rows by every column's active filter and
return the narrowed table (columns untouched). -/
def applySelections (t : Table) (S : Selections) : Table :=
  ⟨t.header, applyColumns t S 0 t.header t.rows⟩

/-- The `Select All` button: for every `object`-dtype column, set the
session selection to all of the column's current distinct present values
(`df[col].dropna().unique().tolist()`); other columns are untouched. -/
def bulkSelectAllFrom (t : Table) : Nat → List (String × Dtype) → Selections
  | _, [] => []
  | i, c :: cs =>
      if c.2 = Dtype.object then
        (c.1, Selection.cat (uniqueFirst (dropNa (origCells t i)))) ::
          bulkSelectAllFrom t (i + 1) cs
      else bulkSelectAllFrom t (i + 1) cs

/-- The selection state produced by the `Select All` button. -/
def bulkSelectAll (t : Table) : Selections := bulkSelectAllFrom t 0 t.header

/-- Whether a selection entry is a categorical one (a `filter_{col}`
session key, as opposed to `slider_{col}` / `date_{col}`). -/
def isCatSel : Selection → Bool
  | .cat _ => true
  | _ => false

/-- The `Clear All` button: it deletes only the `filter_{col}` session
keys of `df`'s columns, so it removes exactly the categorical selections
whose column belongs to the table; slider and date-range session state
survives. -/
def bulkClear (t : Table) (S : Selections) : Selections :=
  S.filter (fun e => !(isCatSel e.2 && (t.header.map Prod.fst).contains e.1))

/-! ### Dataset Store (`load_pipeline_data` / `save_pipeline_data`) -/

/-- The persisted form of the table: a CSV file, i.e. a header line and
one record of string fields per row. -/
structure CsvData where
  header : List String
  records : List (List String)
deriving DecidableEq

/-- How `DataFrame.to_csv` prints one cell: NaN becomes the empty field,
other values their textual form. -/
def serializeVal : Val → String
  | .str s => s
  | .num q => toString q
  | .dt d => toString d
  | .missing => ""

/-- The serialization performed by `df.to_csv(..., index=False)`. -/
def toCsv (t : Table) : CsvData :=
  ⟨t.header.map Prod.fst, t.rows.map (fun r => r.map serializeVal)⟩

/-- Parse the digits of a character list into a natural number;
`none` when empty or when a non-digit occurs. -/
def digitChars : List Char → Option Nat
  | [] => none
  | cs =>
      cs.foldl
        (fun acc c =>
          match acc with
          | none => none
          | some a => if c.isDigit then some (a * 10 + (c.toNat - 48)) else none)
        (some 0)

/-- Decimal number parser standing in for pandas' numeric field parsing:
an optional sign, an integer part, and an optional fractional part. -/
def parseNumString (s : String) : Option ℚ :=
  let cs := s.toList
  let signAndDigits : ℚ × List Char :=
    match cs with
    | '-' :: rest => (-1, rest)
    | '+' :: rest => (1, rest)
    | _ => (1, cs)
  match (signAndDigits.2.splitOn '.') with
  | [intPart] => (digitChars intPart).map (fun v => signAndDigits.1 * v)
  | [intPart, fracPart] =>
      match digitChars intPart, digitChars fracPart with
      | some a, some b =>
          some (signAndDigits.1 * ((a : ℚ) + (b : ℚ) / 10 ^ fracPart.length))
      | _, _ => none
  | _ => none

/-- Dtype inference of `pd.read_csv` on one column of fields: numeric when
there is at least one record and every field is empty or numeric
(an all-empty column reads as all-NaN `float64`), `object` otherwise. -/
def inferDtype (fields : List String) : Dtype :=
  if fields.isEmpty then Dtype.object
  else if fields.all (fun f => f == "" || (parseNumString f).isSome) then Dtype.numeric
  else Dtype.object

/-- How `pd.read_csv` materializes one field under an inferred dtype:
an empty field is NaN, a numeric column parses its fields, an `object`
column keeps them as strings. -/
def parseCell (d : Dtype) (f : String) : Val :=
  if f == "" then Val.missing
  else
    match d with
    | .numeric =>
        match parseNumString f with
        | some q => Val.num q
        | none => Val.missing
    | _ => Val.str f

/-- The fields of column `i` of a CSV file. -/
def csvFieldsAt (c : CsvData) (i : Nat) : List String :=
  c.records.map (fun r => r.getD i "")

/-- The table `pd.read_csv` builds from a CSV file: names from the header
line, dtypes inferred per column, cells parsed under the inferred dtype. -/
def fromCsv (c : CsvData) : Table :=
  let header := c.header.enum.map (fun p => (p.2, inferDtype (csvFieldsAt c p.1)))
  ⟨header,
    c.records.map (fun r => header.enum.map (fun p => parseCell p.2.2 (r.getD p.1 "")))⟩

/-- Python whitespace as stripped by `str.strip()`. -/
def isSpaceChar (c : Char) : Bool :=
  c == ' ' || c == '\t' || c == '\n' || c == '\r' || c == '\x0b' || c == '\x0c'

/-- The header cleanup `col.replace('\n', ' ').strip()` applied on upload:
line breaks become spaces, then surrounding whitespace is stripped. -/
def normalizeName (n : String) : String :=
  let cs := n.toList.map (fun c => if c == '\n' then ' ' else c)
  String.mk (((cs.dropWhile isSpaceChar).reverse.dropWhile isSpaceChar).reverse)

/-- Normalization of every column name of a table. -/
def normalizeCols (t : Table) : Table :=
  ⟨t.header.map (fun c => (normalizeName c.1, c.2)), t.rows⟩

/-- The default schema used when no backing file exists. -/
def defaultColumns : List String :=
  ["Country", "Project", "Vessel", "Pipe Type", "Line Type",
   "Pipe OD", "Pipe Wall Thickness", "Coating Thickness",
   "Steel Density", "Coating Density", "Clad Thickness",
   "Vessel Name", "Water Depth", "Estimated Optimal JLT Angle", "JLT Angle",
   "Installation Date"]

/-- The empty default table (`pd.DataFrame(columns=...)`, all columns
`object` dtype). -/
def defaultTable : Table :=
  ⟨defaultColumns.map (fun n => (n, Dtype.object)), []⟩

/-- `df.empty`: true when the table has no rows or no columns. -/
def tableEmpty (t : Table) : Bool := t.rows.isEmpty || t.header.isEmpty

/-- The process state the dashboard reads and writes: the session-state
table (`st.session_state.pipeline_data`), the two backing CSV files, and
whether the storage is currently writable. -/
structure AppState where
  memory : Option Table
  diskMain : Option CsvData
  diskSample : Option CsvData
  diskWritable : Bool
deriving DecidableEq

/-- The disk part of `load_pipeline_data`: prefer `data/pipeline_data.csv`,
then the sample file (whose column names get cleaned), then the empty
default table.  A CSV file with no columns makes `pd.read_csv` raise; the
handler reports the error and returns a bare empty frame without touching
the session state. -/
def loadFromDisk (st : AppState) : Table × AppState :=
  match st.diskMain with
  | some c =>
      if c.header.isEmpty then (⟨[], []⟩, st)
      else
        let t := fromCsv c
        (t, { st with memory := some t })
  | none =>
      match st.diskSample with
      | some c =>
          if c.header.isEmpty then (⟨[], []⟩, st)
          else
            let t := normalizeCols (fromCsv c)
            (t, { st with memory := some t })
      | none => (defaultTable, { st with memory := some defaultTable })

/-- `load_pipeline_data`: return the session-state table when it exists
and is non-empty, otherwise fall back to the backing files. -/
def load_pipeline_data (st : AppState) : Table × AppState :=
  match st.memory with
  | some t => if tableEmpty t then loadFromDisk st else (t, st)
  | none => loadFromDisk st

/-- `save_pipeline_data`: write the CSV file, then update the session
state, reporting success; on an I/O failure nothing is updated and
failure is reported. -/
def save_pipeline_data (st : AppState) (df : Table) : Bool × AppState :=
  if st.diskWritable then
    (true, { st with diskMain := some (toCsv df), memory := some df })
  else (false, st)

/-- The upload handler (`replace` of the spec): the new table's column
names are normalized, then the result is saved wholesale. -/
def replaceTable (st : AppState) (t : Table) : Bool × AppState :=
  save_pipeline_data st (normalizeCols t)

/-- `pd.concat([df, pd.DataFrame([new_data])], ignore_index=True)`:
columns of the row missing from the table are appended to the schema,
existing rows get NaN there, and the new row takes each column's value
from the record (NaN when absent). -/
def concatRow (t : Table) (data : List (String × Val)) : Table :=
  let names := t.header.map Prod.fst
  let newCols :=
    (data.filter (fun e => !(names.contains e.1))).map
      (fun e =>
        (e.1, match e.2 with | .num _ => Dtype.numeric | _ => Dtype.object))
  let header := t.header ++ newCols
  ⟨header,
    t.rows.map (fun r => r ++ List.replicate newCols.length Val.missing) ++
      [header.map (fun c => (assocLookup data c.1).getD Val.missing)]⟩

/-- `add_new_pipeline_row`: load the current table, concatenate the new
record as a last row, and save. -/
def add_new_pipeline_row (st : AppState) (data : List (String × Val)) :
    Bool × AppState :=
  let ld := load_pipeline_data st
  save_pipeline_data ld.2 (concatRow ld.1 data)

/-- The values of the `Add New Row` form widgets.  The `number_input`
fields up to `water_depth` carry `min_value=0.0`; the two JLT angle
fields have no lower bound. -/
structure FormInput where
  country : String
  project : String
  vessel : String
  pipe_type : String
  line_type : String
  pipe_od : ℚ
  pipe_wall : ℚ
  coating_thickness : ℚ
  steel_density : ℚ
  coating_density : ℚ
  clad_thickness : ℚ
  vessel_name : String
  water_depth : ℚ
  estimated_angle : ℚ
  jlt_angle : ℚ
  installation_date : ℤ

/-- The `new_data` record built on form submission: bounded numeric
fields are stored as the empty string unless strictly positive, the two
JLT angle fields are stored as the empty string exactly when zero. -/
def buildNewData (f : FormInput) : List (String × Val) :=
  [("Country", Val.str f.country),
   ("Project", Val.str f.project),
   ("Vessel", Val.str f.vessel),
   ("Pipe Type", Val.str f.pipe_type),
   ("Line Type", Val.str f.line_type),
   ("Pipe OD", if f.pipe_od > 0 then Val.num f.pipe_od else Val.str ""),
   ("Pipe Wall Thickness", if f.pipe_wall > 0 then Val.num f.pipe_wall else Val.str ""),
   ("Coating Thickness",
     if f.coating_thickness > 0 then Val.num f.coating_thickness else Val.str ""),
   ("Steel Density", if f.steel_density > 0 then Val.num f.steel_density else Val.str ""),
   ("Coating Density",
     if f.coating_density > 0 then Val.num f.coating_density else Val.str ""),
   ("Clad Thickness",
     if f.clad_thickness > 0 then Val.num f.clad_thickness else Val.str ""),
   ("Vessel Name", Val.str f.vessel_name),
   ("Water Depth", if f.water_depth > 0 then Val.num f.water_depth else Val.str ""),
   ("Estimated Optimal JLT Angle",
     if f.estimated_angle ≠ 0 then Val.num f.estimated_angle else Val.str ""),
   ("JLT Angle", if f.jlt_angle ≠ 0 then Val.num f.jlt_angle else Val.str ""),
   ("Installation Date", Val.dt f.installation_date)]

/-- The `Add Row` submit handler: `if country and project:` add the row,
else report a validation error and change nothing (Python truthiness:
a string is falsy exactly when empty). -/
def submitAddRow (st : AppState) (f : FormInput) : AppState :=
  if f.country ≠ "" ∧ f.project ≠ "" then
    (add_new_pipeline_row st (buildNewData f)).2
  else st

/-! ### Spec-side column classifier (for the refinement comparison) -/

/-- Whether a present value is parseable as a real number, the notion the
spec's classification rules use. -/
def valNumParseable : Val → Bool
  | .num _ => true
  | .str s => (parseNumString s).isSome
  | .dt _ => false
  | .missing => true

/-- Whether a present value is (or parses as) a calendar date.  Date
objects are dates; textual date formats are conservatively not modelled —
no claim relies on them. -/
def valDateParseable : Val → Bool
  | .dt _ => true
  | _ => false

/-- Modelled from the spec: the classification of §3, which the code does
not implement as stated — `numeric` when all present values are parseable
as real numbers, `temporal` when the name contains a date-like token and
the values parse as calendar dates, `categorical` otherwise. -/
def specClassifyCol (t : Table) (i : Nat) (n : String) : ColumnKind :=
  let present := dropNa (origCells t i)
  if !present.isEmpty && present.all valNumParseable then ColumnKind.numeric
  else if hasDateToken n && (!present.isEmpty && present.all valDateParseable) then
    ColumnKind.temporal
  else ColumnKind.categorical

/-- The equality notion of the round-trip property: same column names in
the same order, and the same cells in every column.  The spec's table
model (§3) treats the column kind as recomputed from the values, not as
stored data, so it does not take part in table equality. -/
def TableEquiv (t1 t2 : Table) : Prop :=
  t1.header.map Prod.fst = t2.header.map Prod.fst ∧
  ∀ i, i < t1.header.length → origCells t1 i = origCells t2 i

/-! ### Supporting lemmas -/

theorem mem_uniqueAux (x : Val) (l : List Val) :
    ∀ seen, x ∈ uniqueAux l seen ↔ x ∈ l ∧ x ∉ seen := by
  induction l with
  | nil => intro seen; simp [uniqueAux]
  | cons v rest ih =>
    intro seen
    by_cases hv : seen.contains v
    · have hv' : v ∈ seen := by simpa using hv
      rw [uniqueAux, if_pos hv, ih seen]
      constructor
      · rintro ⟨h1, h2⟩; exact ⟨List.mem_cons_of_mem _ h1, h2⟩
      · rintro ⟨h1, h2⟩
        rcases List.mem_cons.mp h1 with h | h
        · cases h; exact absurd hv' h2
        · exact ⟨h, h2⟩
    · have hv' : v ∉ seen := by simpa using hv
      rw [uniqueAux, if_neg hv]
      simp only [List.mem_cons, ih (v :: seen)]
      constructor
      · rintro (rfl | ⟨h1, h2⟩)
        · exact ⟨Or.inl rfl, hv'⟩
        · exact ⟨Or.inr h1, fun hx => h2 (Or.inr hx)⟩
      · rintro ⟨h1 | h1, h2⟩
        · exact Or.inl h1
        · by_cases hxv : x = v
          · exact Or.inl hxv
          · exact Or.inr ⟨h1, by simp [List.mem_cons, hxv, h2]⟩

theorem mem_uniqueFirst (x : Val) (l : List Val) : x ∈ uniqueFirst l ↔ x ∈ l := by
  rw [uniqueFirst, mem_uniqueAux]; simp

theorem uniqueFirst_eq_nil (l : List Val) : uniqueFirst l = [] ↔ l = [] := by
  cases l with
  | nil => simp [uniqueFirst, uniqueAux]
  | cons v rest => simp [uniqueFirst, uniqueAux]

theorem mem_dropNa (x : Val) (cs : List Val) :
    x ∈ dropNa cs ↔ x ∈ cs ∧ x ≠ Val.missing := by
  simp [dropNa, List.mem_filter]

theorem mem_numsOf_of (cs : List Val) (q : ℚ) (h : Val.num q ∈ cs) : q ∈ numsOf cs := by
  rw [numsOf, List.mem_filterMap]; exact ⟨Val.num q, h, rfl⟩

theorem mem_datesOf_of (cs : List Val) (z : ℤ) (h : Val.dt z ∈ cs) : z ∈ datesOf cs := by
  rw [datesOf, List.mem_filterMap]; exact ⟨Val.dt z, h, rfl⟩

theorem listMin_le {α : Type} [LinearOrder α] [Inhabited α] :
    ∀ (l : List α), ∀ x ∈ l, listMin l ≤ x := by
  intro l
  induction l with
  | nil => intro x hx; exact absurd hx (List.not_mem_nil x)
  | cons a l ih =>
    intro x hx
    cases l with
    | nil =>
      rcases List.mem_cons.mp hx with h | h
      · cases h; exact le_refl _
      · exact absurd h (List.not_mem_nil x)
    | cons b l' =>
      rw [listMin]
      rcases List.mem_cons.mp hx with h | h
      · cases h; exact min_le_left _ _
      · exact le_trans (min_le_right _ _) (ih x h)

theorem le_listMax {α : Type} [LinearOrder α] [Inhabited α] :
    ∀ (l : List α), ∀ x ∈ l, x ≤ listMax l := by
  intro l
  induction l with
  | nil => intro x hx; exact absurd hx (List.not_mem_nil x)
  | cons a l ih =>
    intro x hx
    cases l with
    | nil =>
      rcases List.mem_cons.mp hx with h | h
      · cases h; exact le_refl _
      · exact absurd h (List.not_mem_nil x)
    | cons b l' =>
      rw [listMax]
      rcases List.mem_cons.mp hx with h | h
      · cases h; exact le_max_left _ _
      · exact le_trans (ih x h) (le_max_right _ _)

theorem applyColumn_sublist (t : Table) (S : Selections) (i : Nat)
    (c : String × Dtype) (rows : List (List Val)) :
    List.Sublist (applyColumn t S i c rows) rows := by
  cases h : colPred t S i c.1 c.2 with
  | none => simp only [applyColumn, h]; exact List.Sublist.refl rows
  | some p => simp only [applyColumn, h]; exact List.filter_sublist rows

theorem applyColumns_sublist (t : Table) (S : Selections) :
    ∀ (cs : List (String × Dtype)) (i : Nat) (rows : List (List Val)),
      List.Sublist (applyColumns t S i cs rows) rows
  | [], _, rows => List.Sublist.refl rows
  | c :: cs, i, rows =>
    (applyColumns_sublist t S cs (i + 1) (applyColumn t S i c rows)).trans
      (applyColumn_sublist t S i c rows)

theorem applyColumn_mem_pred (t : Table) (S : Selections) (i : Nat)
    (c : String × Dtype) (rows : List (List Val)) (r : List Val) (p : Val → Bool)
    (hp : colPred t S i c.1 c.2 = some p) (hr : r ∈ applyColumn t S i c rows) :
    p (cellAt r i) = true := by
  simp only [applyColumn, hp] at hr
  exact (List.mem_filter.mp hr).2

theorem mem_applyColumns_pred (t : Table) (S : Selections) (cs : List (String × Dtype)) :
    ∀ (i0 : Nat) (rows : List (List Val)) (r : List Val),
      r ∈ applyColumns t S i0 cs rows →
      ∀ (j : Nat) (c : String × Dtype), cs[j]? = some c →
      ∀ p, colPred t S (i0 + j) c.1 c.2 = some p → p (cellAt r (i0 + j)) = true := by
  induction cs with
  | nil => intro i0 rows r _ j c hc; simp at hc
  | cons c0 cs ih =>
    intro i0 rows r hr j c hc p hp
    cases j with
    | zero =>
      simp only [List.getElem?_cons_zero, Option.some.injEq] at hc
      subst hc
      have hr' : r ∈ applyColumn t S i0 c0 rows :=
        (applyColumns_sublist t S cs (i0 + 1) _).subset hr
      rw [Nat.add_zero] at hp ⊢
      exact applyColumn_mem_pred t S i0 c0 rows r p hp hr'
    | succ j =>
      have e : i0 + (j + 1) = i0 + 1 + j := by omega
      rw [e] at hp ⊢
      exact ih (i0 + 1) (applyColumn t S i0 c0 rows) r hr j c (by simpa using hc) p hp

theorem applyColumn_id_of_none (t : Table) (S : Selections) (i : Nat)
    (c : String × Dtype) (rows : List (List Val))
    (h : colPred t S i c.1 c.2 = none) : applyColumn t S i c rows = rows := by
  simp [applyColumn, h]

theorem applyColumn_id_of_all (t : Table) (S : Selections) (i : Nat)
    (c : String × Dtype) (rows : List (List Val)) (p : Val → Bool)
    (hp : colPred t S i c.1 c.2 = some p)
    (hall : ∀ r ∈ rows, p (cellAt r i) = true) : applyColumn t S i c rows = rows := by
  simp only [applyColumn, hp]
  exact List.filter_eq_self.mpr hall

theorem applyColumns_id (t : Table) (S : Selections) (cs : List (String × Dtype)) :
    ∀ (i0 : Nat),
      (∀ (j : Nat) (c : String × Dtype), cs[j]? = some c →
        applyColumn t S (i0 + j) c t.rows = t.rows) →
      applyColumns t S i0 cs t.rows = t.rows := by
  induction cs with
  | nil => intro i0 _; rfl
  | cons c0 cs ih =>
    intro i0 h
    have h0 : applyColumn t S i0 c0 t.rows = t.rows := by
      have := h 0 c0 (by simp)
      simpa using this
    show applyColumns t S (i0 + 1) cs (applyColumn t S i0 c0 t.rows) = t.rows
    rw [h0]
    refine ih (i0 + 1) (fun j c hc => ?_)
    have := h (j + 1) c (by simpa using hc)
    have e : i0 + (j + 1) = i0 + 1 + j := by omega
    rwa [e] at this

theorem colPred_object (t : Table) (S : Selections) (i : Nat) (n : String) :
    colPred t S i n Dtype.object =
      (if (uniqueFirst (dropNa (origCells t i))).isEmpty then none
       else if (lookupCat S n).isEmpty then none
       else some (catPred (lookupCat S n))) := rfl

theorem colPred_numeric (t : Table) (S : Selections) (i : Nat) (n : String) :
    colPred t S i n Dtype.numeric =
      (if (numsOf (origCells t i)).isEmpty then none
       else if listMin (numsOf (origCells t i)) = listMax (numsOf (origCells t i)) then
         none
       else
         some (rangePred
           (lookupRange S n (listMin (numsOf (origCells t i)))
             (listMax (numsOf (origCells t i)))).1
           (lookupRange S n (listMin (numsOf (origCells t i)))
             (listMax (numsOf (origCells t i)))).2)) := rfl

theorem colPred_datetime_token (t : Table) (S : Selections) (i : Nat) (n : String)
    (hname : hasDateToken n = true) :
    colPred t S i n Dtype.datetime =
      (if (datesOf (origCells t i)).isEmpty then none
       else
         some (datePred
           (lookupDateRange S n (listMin (datesOf (origCells t i)))
             (listMax (datesOf (origCells t i)))).1
           (lookupDateRange S n (listMin (datesOf (origCells t i)))
             (listMax (datesOf (origCells t i)))).2)) := by
  simp only [colPred, classifyCol, hname, if_true]

theorem colPred_datetime_notoken (t : Table) (S : Selections) (i : Nat) (n : String)
    (hname : hasDateToken n = false) :
    colPred t S i n Dtype.datetime = none := by
  simp only [colPred, classifyCol, hname, Bool.false_eq_true, if_false]

theorem assocLookup_mem {β : Type} (l : List (String × β)) (n : String) (v : β)
    (h : assocLookup l n = some v) : (n, v) ∈ l := by
  induction l with
  | nil => simp [assocLookup] at h
  | cons e rest ih =>
    rw [assocLookup] at h
    by_cases he : e.1 = n
    · rw [if_pos he] at h
      injection h with h2
      subst h2
      subst he
      simp
    · rw [if_neg he] at h
      exact List.mem_cons_of_mem _ (ih h)

theorem assocLookup_filter_none {β : Type} (p : String × β → Bool)
    (l : List (String × β)) (n : String)
    (h : ∀ e ∈ l, e.1 = n → p e = false) : assocLookup (l.filter p) n = none := by
  induction l with
  | nil => rfl
  | cons e rest ih =>
    have ih' := ih (fun e' he' => h e' (List.mem_cons_of_mem _ he'))
    by_cases hp : p e = true
    · rw [List.filter_cons_of_pos hp, assocLookup]
      have hne : ¬e.1 = n := by
        intro he
        have hfalse := h e (List.mem_cons_self _ _) he
        rw [hfalse] at hp
        exact Bool.false_ne_true hp
      rw [if_neg hne]
      exact ih'
    · rw [List.filter_cons_of_neg (by simpa using hp)]
      exact ih'

theorem assocLookup_bulkSelectAllFrom (t : Table) (cs : List (String × Dtype)) :
    ∀ (i0 j : Nat) (n : String),
      cs[j]? = some (n, Dtype.object) → (cs.map Prod.fst).Nodup →
      assocLookup (bulkSelectAllFrom t i0 cs) n =
        some (Selection.cat (uniqueFirst (dropNa (origCells t (i0 + j))))) := by
  induction cs with
  | nil => intro i0 j n hc _; simp at hc
  | cons c0 cs ih =>
    intro i0 j n hc hnd
    obtain ⟨hnotin, hnd'⟩ := List.nodup_cons.mp hnd
    cases j with
    | zero =>
      simp only [List.getElem?_cons_zero, Option.some.injEq] at hc
      subst hc
      rw [bulkSelectAllFrom, if_pos rfl, assocLookup, if_pos rfl, Nat.add_zero]
    | succ j =>
      have hmemn : n ∈ cs.map Prod.fst := by
        have hm : (n, Dtype.object) ∈ cs := List.getElem?_mem (by simp at hc; exact hc)
        exact List.mem_map_of_mem _ hm
      have hne : ¬c0.1 = n := by
        intro he
        exact hnotin (by rw [he]; exact hmemn)
      have e : i0 + (j + 1) = i0 + 1 + j := by omega
      rw [e]
      by_cases h0 : c0.2 = Dtype.object
      · rw [bulkSelectAllFrom, if_pos h0, assocLookup, if_neg hne]
        exact ih (i0 + 1) j n (by simpa using hc) hnd'
      · rw [bulkSelectAllFrom, if_neg h0]
        exact ih (i0 + 1) j n (by simpa using hc) hnd'

theorem applySelections_id_of_defaults (t : Table) (S : Selections)
    (hcat : ∀ (i : Nat) (n : String),
      t.header[i]? = some (n, Dtype.object) → lookupCat S n = [])
    (hrange : ∀ (n : String) (lo hi : ℚ), lookupRange S n lo hi = (lo, hi))
    (hdrange : ∀ (n : String) (lo hi : ℤ), lookupDateRange S n lo hi = (lo, hi))
    (hnum : ∀ (i : Nat) (n : String), t.header[i]? = some (n, Dtype.numeric) →
      listMin (numsOf (origCells t i)) ≠ listMax (numsOf (origCells t i)) →
      ∀ v ∈ origCells t i, ∃ q, v = Val.num q)
    (hdt : ∀ (i : Nat) (n : String),
      t.header[i]? = some (n, Dtype.datetime) → hasDateToken n = true →
      datesOf (origCells t i) ≠ [] → ∀ v ∈ origCells t i, ∃ z, v = Val.dt z) :
    applySelections t S = t := by
  have hrows : applyColumns t S 0 t.header t.rows = t.rows := by
    apply applyColumns_id
    intro j c hc
    rw [Nat.zero_add]
    obtain ⟨n, d⟩ := c
    cases d with
    | object =>
      apply applyColumn_id_of_none
      rw [colPred_object]
      by_cases hu : (uniqueFirst (dropNa (origCells t j))).isEmpty
      · rw [if_pos hu]
      · rw [if_neg hu, if_pos (by simp [hcat j n hc])]
    | numeric =>
      by_cases hns : (numsOf (origCells t j)).isEmpty
      · exact applyColumn_id_of_none t S j _ _ (by rw [colPred_numeric, if_pos hns])
      · by_cases hmm : listMin (numsOf (origCells t j)) = listMax (numsOf (origCells t j))
        · exact applyColumn_id_of_none t S j _ _
            (by rw [colPred_numeric, if_neg hns, if_pos hmm])
        · apply applyColumn_id_of_all t S j (n, Dtype.numeric) t.rows
            (rangePred (listMin (numsOf (origCells t j))) (listMax (numsOf (origCells t j))))
          · rw [colPred_numeric, if_neg hns, if_neg hmm, hrange]
          · intro r hr
            have hcell : cellAt r j ∈ origCells t j := List.mem_map_of_mem _ hr
            obtain ⟨q, hq⟩ := hnum j n hc hmm (cellAt r j) hcell
            rw [hq]
            have hqmem : q ∈ numsOf (origCells t j) :=
              mem_numsOf_of _ q (by rw [← hq]; exact hcell)
            simp [rangePred, listMin_le _ q hqmem, le_listMax _ q hqmem]
    | datetime =>
      by_cases hname : hasDateToken n
      · by_cases hds : (datesOf (origCells t j)).isEmpty
        · exact applyColumn_id_of_none t S j _ _
            (by rw [colPred_datetime_token t S j n hname, if_pos hds])
        · apply applyColumn_id_of_all t S j (n, Dtype.datetime) t.rows
            (datePred (listMin (datesOf (origCells t j))) (listMax (datesOf (origCells t j))))
          · rw [colPred_datetime_token t S j n hname, if_neg hds, hdrange]
          · intro r hr
            have hcell : cellAt r j ∈ origCells t j := List.mem_map_of_mem _ hr
            obtain ⟨z, hz⟩ := hdt j n hc hname (by simpa [List.isEmpty_iff] using hds)
              (cellAt r j) hcell
            rw [hz]
            have hzmem : z ∈ datesOf (origCells t j) :=
              mem_datesOf_of _ z (by rw [← hz]; exact hcell)
            simp [datePred, listMin_le _ z hzmem, le_listMax _ z hzmem]
      · exact applyColumn_id_of_none t S j _ _
          (colPred_datetime_notoken t S j n (by simpa using hname))
  show Table.mk t.header (applyColumns t S 0 t.header t.rows) = t
  rw [hrows]

/-! ### Claim theorems -/

/-- C1: every row retained by `applySelections` satisfies, for every column
with an active selection, the selection itself: a categorical column with a
non-empty selection only keeps rows whose cell is one of the chosen values;
a numeric column only keeps rows whose cell is a number inside the effective
closed interval; a `date`-named datetime column only keeps rows whose cell
is a date inside the effective closed date interval; and a categorical
column whose selection is empty contributes no filter at all. -/
theorem applySelections_sound (t : Table) (S : Selections) (i : Nat) (n : String)
    (d : Dtype) (hcol : t.header[i]? = some (n, d)) (r : List Val)
    (hr : r ∈ (applySelections t S).rows) :
    (d = Dtype.object → lookupCat S n ≠ [] →
       uniqueFirst (dropNa (origCells t i)) ≠ [] → cellAt r i ∈ lookupCat S n)
    ∧ (d = Dtype.object → lookupCat S n = [] → colPred t S i n d = none)
    ∧ (d = Dtype.numeric → numsOf (origCells t i) ≠ [] →
       listMin (numsOf (origCells t i)) ≠ listMax (numsOf (origCells t i)) →
       ∃ q, cellAt r i = Val.num q
         ∧ (lookupRange S n (listMin (numsOf (origCells t i)))
              (listMax (numsOf (origCells t i)))).1 ≤ q
         ∧ q ≤ (lookupRange S n (listMin (numsOf (origCells t i)))
              (listMax (numsOf (origCells t i)))).2)
    ∧ (d = Dtype.datetime → hasDateToken n = true → datesOf (origCells t i) ≠ [] →
       ∃ z, cellAt r i = Val.dt z
         ∧ (lookupDateRange S n (listMin (datesOf (origCells t i)))
              (listMax (datesOf (origCells t i)))).1 ≤ z
         ∧ z ≤ (lookupDateRange S n (listMin (datesOf (origCells t i)))
              (listMax (datesOf (origCells t i)))).2) := by
  have key := mem_applyColumns_pred t S t.header 0 t.rows r hr i (n, d) hcol
  simp only [Nat.zero_add] at key
  refine ⟨?_, ?_, ?_, ?_⟩
  · rintro rfl h1 h2
    have hp : colPred t S i n Dtype.object = some (catPred (lookupCat S n)) := by
      rw [colPred_object,
        if_neg (by simp [List.isEmpty_iff, h2]),
        if_neg (by simp [List.isEmpty_iff, h1])]
    have hk := key (catPred (lookupCat S n)) hp
    simpa [catPred] using hk
  · rintro rfl h1
    rw [colPred_object]
    by_cases hu : (uniqueFirst (dropNa (origCells t i))).isEmpty
    · rw [if_pos hu]
    · rw [if_neg hu, if_pos (by simp [h1])]
  · rintro rfl h1 h2
    have hp : colPred t S i n Dtype.numeric = some (rangePred
        (lookupRange S n (listMin (numsOf (origCells t i)))
          (listMax (numsOf (origCells t i)))).1
        (lookupRange S n (listMin (numsOf (origCells t i)))
          (listMax (numsOf (origCells t i)))).2) := by
      rw [colPred_numeric, if_neg (by simp [List.isEmpty_iff, h1]), if_neg h2]
    have hk := key _ hp
    cases hv : cellAt r i with
    | num q =>
      rw [hv] at hk
      simp only [rangePred, Bool.and_eq_true, decide_eq_true_eq] at hk
      exact ⟨q, rfl, hk.1, hk.2⟩
    | str s => rw [hv] at hk; simp [rangePred] at hk
    | dt z => rw [hv] at hk; simp [rangePred] at hk
    | missing => rw [hv] at hk; simp [rangePred] at hk
  · rintro rfl hname h1
    have hp : colPred t S i n Dtype.datetime = some (datePred
        (lookupDateRange S n (listMin (datesOf (origCells t i)))
          (listMax (datesOf (origCells t i)))).1
        (lookupDateRange S n (listMin (datesOf (origCells t i)))
          (listMax (datesOf (origCells t i)))).2) := by
      rw [colPred_datetime_token t S i n hname, if_neg (by simp [List.isEmpty_iff, h1])]
    have hk := key _ hp
    cases hv : cellAt r i with
    | dt z =>
      rw [hv] at hk
      simp only [datePred, Bool.and_eq_true, decide_eq_true_eq] at hk
      exact ⟨z, rfl, hk.1, hk.2⟩
    | str s => rw [hv] at hk; simp [datePred] at hk
    | num q => rw [hv] at hk; simp [datePred] at hk
    | missing => rw [hv] at hk; simp [datePred] at hk

/-- Witness for C1 on a concrete table: a one-column categorical table with
selection `{"A"}` retains the row `["A"]`, and its cell lies in the
selection. -/
theorem applySelections_sound_witness :
    cellAt [Val.str "A"] 0 ∈ lookupCat [("c", Selection.cat [Val.str "A"])] "c" := by
  have h := applySelections_sound
    ⟨[("c", Dtype.object)], [[Val.str "A"], [Val.str "B"]]⟩
    [("c", Selection.cat [Val.str "A"])] 0 "c" Dtype.object rfl
    [Val.str "A"] (by decide)
  exact h.1 rfl (by decide) (by decide)

/-- C2: filtering is row selection only: `applySelections` keeps the header
(all columns) unchanged and returns a subsequence of the original rows —
same order, no duplication. -/
theorem applySelections_subsequence (t : Table) (S : Selections) :
    (applySelections t S).header = t.header ∧
    List.Sublist (applySelections t S).rows t.rows :=
  ⟨rfl, applyColumns_sublist t S t.header 0 t.rows⟩

/-- C10: on a numeric column whose observed minimum and maximum differ, the
range filter is always applied — with the default full range when the user
made no selection — and a missing value satisfies neither bound comparison,
so every retained row has a present (non-missing) value in that column. -/
theorem applySelections_numeric_excludes_missing (t : Table) (S : Selections)
    (i : Nat) (n : String) (hcol : t.header[i]? = some (n, Dtype.numeric))
    (hne : listMin (numsOf (origCells t i)) ≠ listMax (numsOf (origCells t i)))
    (_hmiss : Val.missing ∈ origCells t i) (r : List Val)
    (hr : r ∈ (applySelections t S).rows) : cellAt r i ≠ Val.missing := by
  have key := mem_applyColumns_pred t S t.header 0 t.rows r hr i (n, Dtype.numeric) hcol
  simp only [Nat.zero_add] at key
  have h1 : numsOf (origCells t i) ≠ [] := by
    intro h0
    rw [h0] at hne
    exact hne rfl
  have hp : colPred t S i n Dtype.numeric = some (rangePred
      (lookupRange S n (listMin (numsOf (origCells t i)))
        (listMax (numsOf (origCells t i)))).1
      (lookupRange S n (listMin (numsOf (origCells t i)))
        (listMax (numsOf (origCells t i)))).2) := by
    rw [colPred_numeric, if_neg (by simp [List.isEmpty_iff, h1]), if_neg hne]
  have hk := key _ hp
  intro hv
  rw [hv] at hk
  simp [rangePred] at hk

/-- Witness for C10 on a concrete table: the numeric column `[1, NaN, 2]`
with no selection keeps the row `[1]`, whose cell is not missing. -/
theorem applySelections_numeric_excludes_missing_witness :
    cellAt [Val.num 1] 0 ≠ Val.missing :=
  applySelections_numeric_excludes_missing
    ⟨[("x", Dtype.numeric)], [[Val.num 1], [Val.missing], [Val.num 2]]⟩
    [] 0 "x" rfl (by decide) (by decide) [Val.num 1] (by decide)

/-- Counterexample for C3 as stated: on the numeric column `[1, NaN, 2]` the
default full-range slider filter is still applied with no selections at
all, so the NaN row is dropped and `applySelections(T, {})` is not `T`;
moreover `Clear All` deletes only `filter_{col}` session keys, so a
narrowed slider selection survives `bulkClear` and keeps restricting the
table. -/
theorem applySelections_empty_not_identity_cex :
    applySelections ⟨[("x", Dtype.numeric)], [[Val.num 1], [Val.missing], [Val.num 2]]⟩
        [] ≠
      ⟨[("x", Dtype.numeric)], [[Val.num 1], [Val.missing], [Val.num 2]]⟩
    ∧ bulkClear ⟨[("x", Dtype.numeric)], [[Val.num 1], [Val.num 2]]⟩
        [("x", Selection.range 2 2)] = [("x", Selection.range 2 2)]
    ∧ applySelections ⟨[("x", Dtype.numeric)], [[Val.num 1], [Val.num 2]]⟩
        (bulkClear ⟨[("x", Dtype.numeric)], [[Val.num 1], [Val.num 2]]⟩
          [("x", Selection.range 2 2)]) ≠
      ⟨[("x", Dtype.numeric)], [[Val.num 1], [Val.num 2]]⟩ := by decide

/-- C3 as amended: `applySelections(T, {})` returns `T` unchanged provided
every numeric column whose observed min and max differ holds a number in
every row, and every `date`-named datetime column with at least one
present date holds a date in every row (the always-on default range
filters then keep every row); and since `bulkClear` removes exactly the
categorical selections of `T`'s columns, `bulkClear` followed by
`applySelections` also returns `T` unchanged provided, additionally, the
selection state holds only categorical selections. -/
theorem applySelections_empty_identity (t : Table) (S : Selections)
    (hnum : ∀ (i : Nat) (n : String), t.header[i]? = some (n, Dtype.numeric) →
      listMin (numsOf (origCells t i)) ≠ listMax (numsOf (origCells t i)) →
      ∀ v ∈ origCells t i, ∃ q, v = Val.num q)
    (hdt : ∀ (i : Nat) (n : String),
      t.header[i]? = some (n, Dtype.datetime) → hasDateToken n = true →
      datesOf (origCells t i) ≠ [] → ∀ v ∈ origCells t i, ∃ z, v = Val.dt z)
    (hS : ∀ e ∈ S, isCatSel e.2 = true) :
    applySelections t [] = t ∧ applySelections t (bulkClear t S) = t := by
  constructor
  · exact applySelections_id_of_defaults t []
      (fun _ _ _ => rfl) (fun _ _ _ => rfl) (fun _ _ _ => rfl) hnum hdt
  · have hclear : ∀ (n : String) (v : Selection),
        assocLookup (bulkClear t S) n = some v → isCatSel v = true := by
      intro n v hv
      have hmem := assocLookup_mem _ _ _ hv
      rw [bulkClear] at hmem
      exact hS _ (List.mem_filter.mp hmem).1
    refine applySelections_id_of_defaults t (bulkClear t S) ?_ ?_ ?_ hnum hdt
    · intro i n hcol
      have hname : n ∈ t.header.map Prod.fst := by
        have : (n, Dtype.object) ∈ t.header := List.getElem?_mem hcol
        exact List.mem_map_of_mem _ this
      have hnone : assocLookup (bulkClear t S) n = none := by
        rw [bulkClear]
        apply assocLookup_filter_none
        intro e he h1
        have hc := hS e he
        simp [hc, h1, hname]
      rw [lookupCat, hnone]
    · intro n lo hi
      rw [lookupRange]
      cases hv : assocLookup (bulkClear t S) n with
      | none => rfl
      | some v =>
        have := hclear n v hv
        cases v with
        | cat vs => rfl
        | range a b => simp [isCatSel] at this
        | dateRange a b => simp [isCatSel] at this
    · intro n lo hi
      rw [lookupDateRange]
      cases hv : assocLookup (bulkClear t S) n with
      | none => rfl
      | some v =>
        have := hclear n v hv
        cases v with
        | cat vs => rfl
        | range a b => simp [isCatSel] at this
        | dateRange a b => simp [isCatSel] at this

/-- Witness for C3 (amended) on a concrete table: a one-column categorical
table is unchanged both under the empty selection state and after
`Clear All` of a categorical selection. -/
theorem applySelections_empty_identity_witness :
    applySelections ⟨[("c", Dtype.object)], [[Val.str "A"]]⟩ [] =
      ⟨[("c", Dtype.object)], [[Val.str "A"]]⟩
    ∧ applySelections ⟨[("c", Dtype.object)], [[Val.str "A"]]⟩
        (bulkClear ⟨[("c", Dtype.object)], [[Val.str "A"]]⟩
          [("c", Selection.cat [Val.str "A"])]) =
      ⟨[("c", Dtype.object)], [[Val.str "A"]]⟩ := by
  apply applySelections_empty_identity
  · intro i n hcol
    match i, hcol with
    | 0, hcol => simp at hcol
  · intro i n hcol
    match i, hcol with
    | 0, hcol => simp at hcol
  · intro e he
    have he' : e = ("c", Selection.cat [Val.str "A"]) := by simpa using he
    subst he'
    rfl

/-- Counterexample for C4 as stated: on the purely categorical table with
column `c = ["A", NaN]`, `Select All` selects the set `{"A"}` of distinct
present values, and the membership filter then drops the NaN row, so
`applySelections` after `bulkSelectAll` is not the identity. -/
theorem bulkSelectAll_not_identity_cex :
    applySelections ⟨[("c", Dtype.object)], [[Val.str "A"], [Val.missing]]⟩
        (bulkSelectAll ⟨[("c", Dtype.object)], [[Val.str "A"], [Val.missing]]⟩) =
      ⟨[("c", Dtype.object)], [[Val.str "A"]]⟩
    ∧ applySelections ⟨[("c", Dtype.object)], [[Val.str "A"], [Val.missing]]⟩
        (bulkSelectAll ⟨[("c", Dtype.object)], [[Val.str "A"], [Val.missing]]⟩) ≠
      ⟨[("c", Dtype.object)], [[Val.str "A"], [Val.missing]]⟩ := by decide

/-- C4 as amended: on a purely categorical table (every column of `object`
dtype, names distinct as the data model requires) whose columns contain no
missing value alongside present values, `applySelections` after
`bulkSelectAll` returns the table unchanged — selecting every distinct
value restricts nothing among present values. -/
theorem bulkSelectAll_identity (t : Table)
    (hnodup : (t.header.map Prod.fst).Nodup)
    (hcat : ∀ (i : Nat) (c : String × Dtype), t.header[i]? = some c →
      c.2 = Dtype.object)
    (hpres : ∀ (i : Nat) (n : String), t.header[i]? = some (n, Dtype.object) →
      dropNa (origCells t i) ≠ [] → ∀ v ∈ origCells t i, v ≠ Val.missing) :
    applySelections t (bulkSelectAll t) = t := by
  have hrows : applyColumns t (bulkSelectAll t) 0 t.header t.rows = t.rows := by
    apply applyColumns_id
    intro j c hc
    rw [Nat.zero_add]
    obtain ⟨n, d⟩ := c
    have hd : d = Dtype.object := hcat j (n, d) hc
    subst hd
    by_cases hu : (uniqueFirst (dropNa (origCells t j))).isEmpty
    · exact applyColumn_id_of_none t _ j _ _ (by rw [colPred_object, if_pos hu])
    · have hlook : assocLookup (bulkSelectAll t) n =
          some (Selection.cat (uniqueFirst (dropNa (origCells t j)))) := by
        have := assocLookup_bulkSelectAllFrom t t.header 0 j n hc hnodup
        simpa using this
      have hsel : lookupCat (bulkSelectAll t) n =
          uniqueFirst (dropNa (origCells t j)) := by
        rw [lookupCat, hlook]
      apply applyColumn_id_of_all t _ j (n, Dtype.object) t.rows
        (catPred (uniqueFirst (dropNa (origCells t j))))
      · rw [colPred_object, if_neg hu, hsel, if_neg hu]
      · intro r hr
        have hcell : cellAt r j ∈ origCells t j := List.mem_map_of_mem _ hr
        have hdne : dropNa (origCells t j) ≠ [] := by
          intro h0
          rw [h0] at hu
          exact hu rfl
        have hnm : cellAt r j ≠ Val.missing := hpres j n hc hdne _ hcell
        have hin : cellAt r j ∈ uniqueFirst (dropNa (origCells t j)) := by
          rw [mem_uniqueFirst, mem_dropNa]
          exact ⟨hcell, hnm⟩
        simpa [catPred] using hin
  show Table.mk t.header (applyColumns t (bulkSelectAll t) 0 t.header t.rows) = t
  rw [hrows]

/-- Witness for C4 (amended) on a concrete table: `Select All` followed by
filtering leaves the two-row categorical table unchanged. -/
theorem bulkSelectAll_identity_witness :
    applySelections ⟨[("c", Dtype.object)], [[Val.str "A"], [Val.str "B"]]⟩
      (bulkSelectAll ⟨[("c", Dtype.object)], [[Val.str "A"], [Val.str "B"]]⟩) =
    ⟨[("c", Dtype.object)], [[Val.str "A"], [Val.str "B"]]⟩ := by
  apply bulkSelectAll_identity
  · decide
  · intro i c hc
    match i, hc with
    | 0, hc =>
      simp only [List.getElem?_cons_zero, Option.some.injEq] at hc
      rw [← hc]
  · intro i n hcol _ v hv
    match i, hcol with
    | 0, _ =>
      have : origCells ⟨[("c", Dtype.object)], [[Val.str "A"], [Val.str "B"]]⟩ 0 =
          [Val.str "A", Val.str "B"] := rfl
      rw [this] at hv
      rcases List.mem_cons.mp hv with h | h
      · rw [h]; decide
      · rcases List.mem_cons.mp h with h2 | h2
        · rw [h2]; decide
        · exact absurd h2 (List.not_mem_nil v)

/-- Counterexample for C5 as stated: an `object`-dtype column named
`Installation Date` holding a calendar date (exactly what the manual-entry
form produces for its date field) should be temporal per the claim's
value-based rules, but the engine gives it the categorical treatment, and
an active date-range selection excluding the row leaves the table
untouched. -/
theorem classify_spec_mismatch_cex :
    specClassifyCol ⟨[("Installation Date", Dtype.object)], [[Val.dt 18262]]⟩ 0
        "Installation Date" = ColumnKind.temporal
    ∧ classifyCol "Installation Date" Dtype.object = some ColumnKind.categorical
    ∧ applySelections ⟨[("Installation Date", Dtype.object)], [[Val.dt 18262]]⟩
        [("Installation Date", Selection.dateRange 0 0)] =
      ⟨[("Installation Date", Dtype.object)], [[Val.dt 18262]]⟩ := by decide

/-- C5 as amended: the engine classifies a column by its stored dtype
alone, not by parsing its values: categorical exactly for `object` dtype,
numeric exactly for numeric dtype, temporal exactly for a datetime dtype
whose name contains a date-like token; a datetime column without the token
contributes no filter at all. -/
theorem classify_by_dtype (n : String) (d : Dtype) (t : Table) (S : Selections)
    (i : Nat) :
    (classifyCol n d = some ColumnKind.categorical ↔ d = Dtype.object)
    ∧ (classifyCol n d = some ColumnKind.numeric ↔ d = Dtype.numeric)
    ∧ (classifyCol n d = some ColumnKind.temporal ↔
        (d = Dtype.datetime ∧ hasDateToken n = true))
    ∧ (classifyCol n d = none ↔ (d = Dtype.datetime ∧ hasDateToken n = false))
    ∧ (d = Dtype.datetime → hasDateToken n = false → colPred t S i n d = none) := by
  cases d with
  | object =>
    exact ⟨by simp [classifyCol], by simp [classifyCol], by simp [classifyCol],
      by simp [classifyCol], fun h => absurd h (by simp)⟩
  | numeric =>
    exact ⟨by simp [classifyCol], by simp [classifyCol], by simp [classifyCol],
      by simp [classifyCol], fun h => absurd h (by simp)⟩
  | datetime =>
    by_cases hname : hasDateToken n
    · refine ⟨by simp [classifyCol, hname], by simp [classifyCol, hname],
        by simp [classifyCol, hname], by simp [classifyCol, hname], ?_⟩
      intro _ hf
      rw [hname] at hf
      exact absurd hf (by simp)
    · have hf : hasDateToken n = false := by simpa using hname
      exact ⟨by simp [classifyCol, hf], by simp [classifyCol, hf],
        by simp [classifyCol, hf], by simp [classifyCol, hf],
        fun _ _ => colPred_datetime_notoken t S i n hf⟩

theorem load_mem_eq (st : AppState) (df : Table) (hmem : st.memory = some df) :
    load_pipeline_data st =
      (if tableEmpty df then loadFromDisk st else (df, st)) := by
  simp only [load_pipeline_data, hmem]

theorem loadFromDisk_main_eq (st : AppState) (c : CsvData)
    (hmn : st.diskMain = some c) :
    loadFromDisk st =
      (if c.header.isEmpty then (⟨[], []⟩, st)
       else (fromCsv c, { st with memory := some (fromCsv c) })) := by
  simp only [loadFromDisk, hmn]

theorem fromCsv_no_records (c : CsvData) (hr : c.records = []) :
    fromCsv c = ⟨c.header.enum.map (fun p => (p.2, Dtype.object)), []⟩ := by
  simp [fromCsv, csvFieldsAt, hr, inferDtype]

theorem fromCsv_names (c : CsvData) (hr : c.records = []) :
    (fromCsv c).header.map Prod.fst = c.header := by
  rw [fromCsv_no_records c hr]
  show (c.header.enum.map (fun p => (p.2, Dtype.object))).map Prod.fst = c.header
  rw [List.map_map]
  have hcomp : (Prod.fst ∘ fun p : Nat × String => (p.2, Dtype.object)) = Prod.snd :=
    rfl
  rw [hcomp]
  exact List.enum_map_snd c.header

/-- C6: uploading a table (`replace`, which normalizes its column names and
saves) followed by `load` yields a table equal to the uploaded one up to
column-name normalization: the same column names in the same order and the
same cells in every column.  A non-empty table is returned directly from
the session state; an empty one is re-read from the freshly written CSV
file, which preserves names and (trivially) cells. -/
theorem replace_load_roundtrip (st : AppState) (t : Table)
    (hw : st.diskWritable = true) :
    TableEquiv (load_pipeline_data (replaceTable st t).2).1 (normalizeCols t) := by
  have hstate : (replaceTable st t).2 =
      { st with diskMain := some (toCsv (normalizeCols t)),
                memory := some (normalizeCols t) } := by
    rw [replaceTable, save_pipeline_data, if_pos hw]
  rw [hstate, load_mem_eq _ (normalizeCols t) rfl]
  by_cases he : tableEmpty (normalizeCols t)
  · rw [if_pos he, loadFromDisk_main_eq _ (toCsv (normalizeCols t)) rfl]
    by_cases hh : (toCsv (normalizeCols t)).header.isEmpty
    · rw [if_pos hh]
      refine ⟨?_, ?_⟩
      · have hnil : (normalizeCols t).header.map Prod.fst = [] := by
          simpa [toCsv, List.isEmpty_iff] using hh
        simpa using hnil.symm
      · intro i hi
        simp at hi
    · rw [if_neg hh]
      have hrows : (normalizeCols t).rows = [] := by
        simp only [tableEmpty, Bool.or_eq_true, List.isEmpty_iff] at he
        rcases he with h | h
        · exact h
        · exfalso
          apply hh
          simp [toCsv, h]
      have hrec0 : (toCsv (normalizeCols t)).records = [] := by
        simp [toCsv, hrows]
      refine ⟨?_, ?_⟩
      · rw [fromCsv_names _ hrec0]
        rfl
      · intro i hi
        rw [fromCsv_no_records _ hrec0]
        simp [origCells, hrows]
  · rw [if_neg he]
    exact ⟨rfl, fun _ _ => rfl⟩

/-- Witness for C6 on a concrete state: replacing with a one-cell table on a
writable empty store and loading back gives an equivalent table. -/
theorem replace_load_roundtrip_witness :
    TableEquiv
      (load_pipeline_data
        (replaceTable ⟨none, none, none, true⟩
          ⟨[("a", Dtype.object)], [[Val.str "x"]]⟩).2).1
      (normalizeCols ⟨[("a", Dtype.object)], [[Val.str "x"]]⟩) :=
  replace_load_roundtrip ⟨none, none, none, true⟩
    ⟨[("a", Dtype.object)], [[Val.str "x"]]⟩ rfl

/-- C7: when the storage is unwritable, `save_pipeline_data` reports
failure, the whole state — in particular the in-memory session table — is
left unchanged, and any subsequent `load` sees exactly what it would have
seen before the failed save. -/
theorem save_failure_preserves (st : AppState) (df : Table)
    (hw : st.diskWritable = false) :
    (save_pipeline_data st df).1 = false
    ∧ (save_pipeline_data st df).2 = st
    ∧ load_pipeline_data (save_pipeline_data st df).2 = load_pipeline_data st := by
  rw [save_pipeline_data, if_neg (by simp [hw])]
  exact ⟨rfl, rfl, rfl⟩

/-- Witness for C7 on a concrete unwritable state. -/
theorem save_failure_preserves_witness :
    (save_pipeline_data ⟨some ⟨[("a", Dtype.object)], [[Val.str "x"]]⟩, none, none, false⟩
      ⟨[("a", Dtype.object)], [[Val.str "y"]]⟩).1 = false
    ∧ (save_pipeline_data ⟨some ⟨[("a", Dtype.object)], [[Val.str "x"]]⟩, none, none, false⟩
        ⟨[("a", Dtype.object)], [[Val.str "y"]]⟩).2 =
      ⟨some ⟨[("a", Dtype.object)], [[Val.str "x"]]⟩, none, none, false⟩
    ∧ load_pipeline_data
        (save_pipeline_data ⟨some ⟨[("a", Dtype.object)], [[Val.str "x"]]⟩, none, none, false⟩
          ⟨[("a", Dtype.object)], [[Val.str "y"]]⟩).2 =
      load_pipeline_data ⟨some ⟨[("a", Dtype.object)], [[Val.str "x"]]⟩, none, none, false⟩ :=
  save_failure_preserves
    ⟨some ⟨[("a", Dtype.object)], [[Val.str "x"]]⟩, none, none, false⟩
    ⟨[("a", Dtype.object)], [[Val.str "y"]]⟩ rfl

theorem stored_pos_iff (q : ℚ) :
    (some (if q > 0 then Val.num q else Val.str "") = some (Val.str "") ↔ q ≤ 0) := by
  by_cases h : q > 0
  · rw [if_pos h]
    constructor
    · intro h2
      injection h2 with h3
      exact absurd h3 (by simp)
    · intro h2
      exact absurd h (not_lt.mpr h2)
  · rw [if_neg h]
    exact ⟨fun _ => not_lt.mp h, fun _ => rfl⟩

theorem stored_nonzero_iff (q : ℚ) :
    (some (if q ≠ 0 then Val.num q else Val.str "") = some (Val.str "") ↔ q = 0) := by
  by_cases h : q ≠ 0
  · rw [if_pos h]
    constructor
    · intro h2
      injection h2 with h3
      exact absurd h3 (by simp)
    · intro h2
      exact absurd h2 h
  · rw [if_neg h]
    push_neg at h
    exact ⟨fun _ => h, fun _ => rfl⟩

/-- Counterexample for C8 as stated: the JLT angle fields are stored as
empty only when exactly zero (`!= 0`, not `> 0`), so the below-zero entry
`-1` for `JLT Angle` — expressible because these two inputs carry no lower
bound — is stored as the number `-1`, not as empty. -/
theorem jlt_negative_stored_cex :
    assocLookup
        (buildNewData
          ⟨"Brazil", "P1", "", "", "", 0, 0, 0, 0, 0, 0, "", 0, 1, -1, 18262⟩)
        "JLT Angle" = some (Val.num (-1))
    ∧ ((-1 : ℚ) ≤ 0 ∧ Val.num (-1) ≠ Val.str "") := by decide

/-- C8 as amended: in the record built by the add-row form, each
zero-bounded optional numeric field (Pipe OD through Water Depth) is stored
as empty exactly when its value is at or below the zero sentinel, while the
two unbounded JLT angle fields are stored as empty exactly when their value
equals zero — a negative angle is stored as the number. -/
theorem newRow_zero_sentinel (f : FormInput) :
    (assocLookup (buildNewData f) "Pipe OD" = some (Val.str "") ↔ f.pipe_od ≤ 0)
    ∧ (assocLookup (buildNewData f) "Pipe Wall Thickness" = some (Val.str "") ↔
        f.pipe_wall ≤ 0)
    ∧ (assocLookup (buildNewData f) "Coating Thickness" = some (Val.str "") ↔
        f.coating_thickness ≤ 0)
    ∧ (assocLookup (buildNewData f) "Steel Density" = some (Val.str "") ↔
        f.steel_density ≤ 0)
    ∧ (assocLookup (buildNewData f) "Coating Density" = some (Val.str "") ↔
        f.coating_density ≤ 0)
    ∧ (assocLookup (buildNewData f) "Clad Thickness" = some (Val.str "") ↔
        f.clad_thickness ≤ 0)
    ∧ (assocLookup (buildNewData f) "Water Depth" = some (Val.str "") ↔
        f.water_depth ≤ 0)
    ∧ (assocLookup (buildNewData f) "Estimated Optimal JLT Angle" =
        some (Val.str "") ↔ f.estimated_angle = 0)
    ∧ (assocLookup (buildNewData f) "JLT Angle" = some (Val.str "") ↔
        f.jlt_angle = 0) := by
  refine ⟨?_, ?_, ?_, ?_, ?_, ?_, ?_, ?_, ?_⟩
  · exact stored_pos_iff f.pipe_od
  · exact stored_pos_iff f.pipe_wall
  · exact stored_pos_iff f.coating_thickness
  · exact stored_pos_iff f.steel_density
  · exact stored_pos_iff f.coating_density
  · exact stored_pos_iff f.clad_thickness
  · exact stored_pos_iff f.water_depth
  · exact stored_nonzero_iff f.estimated_angle
  · exact stored_nonzero_iff f.jlt_angle

/-- C9: when either mandatory field is blank, the submit handler rejects
the record with no mutation at all: the state (session table and files) is
unchanged, and in particular the loaded table's row count is unchanged. -/
theorem blank_mandatory_rejected (st : AppState) (f : FormInput)
    (hb : f.country = "" ∨ f.project = "") :
    submitAddRow st f = st
    ∧ (load_pipeline_data (submitAddRow st f)).1.rows.length =
      (load_pipeline_data st).1.rows.length := by
  have hcond : ¬(f.country ≠ "" ∧ f.project ≠ "") := by
    rcases hb with h | h <;> simp [h]
  rw [submitAddRow, if_neg hcond]
  exact ⟨rfl, rfl⟩

/-- Witness for C9 on a concrete submission with a blank project. -/
theorem blank_mandatory_rejected_witness :
    submitAddRow ⟨some ⟨[("a", Dtype.object)], [[Val.str "x"]]⟩, none, none, true⟩
        ⟨"Brazil", "", "", "", "", 0, 0, 0, 0, 0, 0, "", 0, 0, 0, 0⟩ =
      ⟨some ⟨[("a", Dtype.object)], [[Val.str "x"]]⟩, none, none, true⟩
    ∧ (load_pipeline_data
        (submitAddRow ⟨some ⟨[("a", Dtype.object)], [[Val.str "x"]]⟩, none, none, true⟩
          ⟨"Brazil", "", "", "", "", 0, 0, 0, 0, 0, 0, "", 0, 0, 0, 0⟩)).1.rows.length =
      (load_pipeline_data
        ⟨some ⟨[("a", Dtype.object)], [[Val.str "x"]]⟩, none, none, true⟩).1.rows.length :=
  blank_mandatory_rejected
    ⟨some ⟨[("a", Dtype.object)], [[Val.str "x"]]⟩, none, none, true⟩
    ⟨"Brazil", "", "", "", "", 0, 0, 0, 0, 0, 0, "", 0, 0, 0, 0⟩ (Or.inr rfl)

end Pipeline

